import Mathlib

/-!
Verification of the workspace orchestration and asynchronous operation layer
of the repository: the `Setup.filterSensitiveInformation` redaction function
and the error taxonomy (`pkg/tfcli/errors/errors.go`), and the
`WorkspaceStore.Workspace` / `WorkspaceStore.Remove` entry points of
`pkg/terraform/store.go`, embedded shallowly as pure Lean functions over
explicit state (filesystem, registry) with an outcome oracle for the
fallible I/O primitives.
-/

namespace Upjet

/-! ### Strings as lists of characters, and Go's `strings.ReplaceAll` -/

/-- Whether the pattern (first argument) occurs at the very head of the
second argument, i.e. the pattern is a leading segment of the string. -/
def matchesAt : List Char → List Char → Bool
  | [], _ => true
  | _ :: _, [] => false
  | a :: v, b :: s => a == b && matchesAt v s

/-- Whether the second argument occurs as a contiguous substring of the
first argument (Go's `strings.Contains s v`). -/
def containsSub : List Char → List Char → Bool
  | [], v => matchesAt v []
  | c :: rest, v => matchesAt v (c :: rest) || containsSub rest v

/-- Go's `strings.ReplaceAll s old new` for non-empty `old`: scan left to
right, replace each leftmost non-overlapping occurrence of `old` with `new`,
and do not rescan the replacement text. -/
def replNE (old new : List Char) : List Char → List Char
  | [] => []
  | c :: rest =>
    if matchesAt old (c :: rest) then
      new ++ replNE old new (rest.drop (old.length - 1))
    else
      c :: replNE old new rest
termination_by s => s.length
decreasing_by
  · simp only [List.length_drop, List.length_cons]
    omega
  · simp only [List.length_cons]
    omega

/-- Go's `strings.ReplaceAll s "" new`: `new` is inserted at the start of the
string and after every character. -/
def replEmpty (new : List Char) : List Char → List Char
  | [] => new
  | c :: rest => new ++ c :: replEmpty new rest

/-- Go's `strings.ReplaceAll s old new`. -/
def goReplaceAll (s old new : List Char) : List Char :=
  if old.isEmpty then replEmpty new s else replNE old new s

/-- The literal replacement marker used by `Setup.filterSensitiveInformation`. -/
def redactedMarker : List Char := "REDACTED".toList

/-! ### Setup and the redaction function (`pkg/terraform/store.go`) -/

/-- One value of the configuration body `map[string]any`: either a string
value or a value of some non-string type (only string values are redacted). -/
inductive ConfigValue where
  | str (value : List Char)
  | nonString
  deriving DecidableEq

/-- The setup configuration body (`ProviderConfiguration map[string]any`).
Only the values matter to the redaction function; the list order models the
(unspecified) Go map iteration order. -/
abbrev ProviderConfiguration := List ConfigValue

/-- `ProviderRequirement` of the source. -/
structure ProviderRequirement where
  Source : String
  Version : String

/-- `Setup` of the source: Terraform version, requirement, configuration body
and extra environment variables. -/
structure Setup where
  Version : String
  Requirement : ProviderRequirement
  Configuration : ProviderConfiguration
  Env : List String

/-- The loop body of `Setup.filterSensitiveInformation`: a string value that
is non-empty is replaced everywhere by the marker, any other value is
skipped. -/
def redactOne (acc : List Char) (v : ConfigValue) : List Char :=
  match v with
  | ConfigValue.str s => if s = [] then acc else goReplaceAll acc s redactedMarker
  | ConfigValue.nonString => acc

/-- `Setup.filterSensitiveInformation` of the source: fold the replacement
over all configuration values in iteration order. -/
def Setup.filterSensitiveInformation (ts : Setup) (s : List Char) : List Char :=
  ts.Configuration.foldl redactOne s

/-- Membership of a character in a character list, as a boolean. -/
def charIn (c : Char) : List Char → Bool
  | [] => false
  | x :: xs => c == x || charIn c xs

/-- Whether no string value of the configuration body shares a character
with the redaction marker; the decidable side condition under which the
amended redaction-completeness property holds. -/
def secretsDisjoint (cfg : List ConfigValue) : Bool :=
  cfg.all fun v =>
    match v with
    | ConfigValue.str u => u.all fun a => !charIn a redactedMarker
    | ConfigValue.nonString => true

/-! ### Error taxonomy (`pkg/tfcli/errors/errors.go`) -/

/-- Modelled from the spec: the operation kinds carried by an
operation-in-progress signal (`model.OperationType`, whose defining file is
outside the excerpt); the spec names apply and destroy kinds, plus further
kinds such as plan. -/
inductive OperationType where
  | apply
  | destroy
  | plan
  deriving DecidableEq

/-- `PipelineState` of the source is a string type. -/
abbrev PipelineState := String

/-- Pipeline state constant of the source. -/
def PipelineNotStarted : PipelineState := "Asynchronous Terraform pipeline not started yet"

/-- Pipeline state constant of the source. -/
def PipelineStateLocked : PipelineState := "Terraform CLI is still running"

/-- Pipeline state constant of the source. -/
def PipelineStateNoStore : PipelineState := "Result is not available yet"

/-- A Go error value as far as the error taxonomy can observe it: the two
typed signals of the package, a wrapping error produced by
`errors.Wrap`/`errors.Wrapf` (unwrappable to its cause), and any other leaf
error. A Go `error` interface value is `Option GoError`, `none` being nil. -/
inductive GoError where
  | opInProgress (op : OperationType)
  | pipelineInProgress (state : PipelineState)
  | wrapped (msg : String) (cause : GoError)
  | basic (msg : String)
  deriving DecidableEq

/-- `NewOperationInProgressError` of the source. -/
def NewOperationInProgressError (opType : OperationType) : GoError :=
  GoError.opInProgress opType

/-- `NewPipelineInProgressError` of the source. -/
def NewPipelineInProgressError (state : PipelineState) : GoError :=
  GoError.pipelineInProgress state

/-- The chain walk done by `errors.As(err, &OperationInProgressError{})`:
the error itself matches if its dynamic type is `OperationInProgressError`,
otherwise the chain is followed through `Unwrap`; on a match the operation
kind is extracted. -/
def asOperationInProgress : GoError → Option OperationType
  | GoError.opInProgress op => some op
  | GoError.wrapped _ cause => asOperationInProgress cause
  | _ => none

/-- `IsOperationInProgress` of the source:
`errors.As(err, opErr) && (opType == opErr.GetOperation())`; a nil error
matches nothing. -/
def IsOperationInProgress (err : Option GoError) (opType : OperationType) : Bool :=
  match err with
  | none => false
  | some e =>
    match asOperationInProgress e with
    | some op => opType == op
    | none => false

/-- `IsApplying` of the source. -/
def IsApplying (err : Option GoError) : Bool :=
  IsOperationInProgress err OperationType.apply

/-- `IsDestroying` of the source. -/
def IsDestroying (err : Option GoError) : Bool :=
  IsOperationInProgress err OperationType.destroy

/-- The chain walk done by `errors.As(err, &PipelineInProgressError{})`,
extracting the wrapped pipeline state on a match. -/
def asPipelineInProgress : GoError → Option PipelineState
  | GoError.pipelineInProgress s => some s
  | GoError.wrapped _ cause => asPipelineInProgress cause
  | _ => none

/-- `IsPipelineInProgress` of the source: the wrapped state together with
`true` when `errors.As` matches, the sentinel `"invalid"` together with
`false` otherwise (also for a nil error). -/
def IsPipelineInProgress (err : Option GoError) : PipelineState × Bool :=
  match err with
  | none => ("invalid", false)
  | some e =>
    match asPipelineInProgress e with
    | some s => (s, true)
    | none => ("invalid", false)

/-- The `Is` method of `OperationInProgressError`: a bare dynamic type check
of its argument, ignoring the operation kind. -/
def OperationInProgressError.Is : GoError → Bool
  | GoError.opInProgress _ => true
  | _ => false

/-- The `Is` method of `PipelineInProgressError`: a bare dynamic type check
of its argument, ignoring the carried state. -/
def PipelineInProgressError.Is : GoError → Bool
  | GoError.pipelineInProgress _ => true
  | _ => false

/-- One step chain of Go's `errors.Is(err, target)` for a non-nil target:
direct comparison, then the receiver's `Is` method when it has one, then the
walk into the cause of a wrapping error. Comparison of the two value-typed
signals is Go struct equality, which the structural equality below models
exactly; wrapping and leaf errors are distinct allocations in the source, for
which structural equality over-approximates Go pointer equality, but no
theorem below compares two of those. -/
def goIsChain (e : GoError) (target : GoError) : Bool :=
  (e == target)
  || (match e with
      | GoError.opInProgress _ => OperationInProgressError.Is target
      | GoError.pipelineInProgress _ => PipelineInProgressError.Is target
      | _ => false)
  || (match e with
      | GoError.wrapped _ cause => goIsChain cause target
      | _ => false)

/-- Go's `errors.Is` on possibly-nil errors. -/
def goErrorsIs : Option GoError → Option GoError → Bool
  | none, none => true
  | none, some _ => false
  | some _, none => false
  | some e, some t => goIsChain e t

/-! ### Workspace store (`pkg/terraform/store.go`)

The store's entry points are embedded as pure state transformers over an
explicit registry-plus-filesystem state.  The outcomes of the fallible I/O
primitives the store calls (directory creation, file-producer construction,
stats, writes, provider-runner start, `terraform init`, recursive removal)
are supplied by an `Oracle` record: each field fixes what the corresponding
primitive would do in the world the call runs in, so a theorem quantified
over oracles covers every combination of success and failure the source has
to handle.  Each entry point also records the ordered trace of lock and I/O
events it performs, so lock-scoping claims are statements about traces. -/

/-- An association lookup, modelling a read of a Go map with string keys. -/
def lookupAssoc {α : Type} (k : String) : List (String × α) → Option α
  | [] => none
  | (k', v) :: rest => if k' = k then some v else lookupAssoc k rest

/-- An association update-or-insert, modelling a Go map assignment. -/
def setAssoc {α : Type} (k : String) (v : α) : List (String × α) → List (String × α)
  | [] => [(k, v)]
  | (k', v') :: rest => if k' = k then (k, v) :: rest else (k', v') :: setAssoc k v rest

/-- An association erase, modelling Go's `delete` on a map: every binding of
the key disappears (a Go map holds each key at most once). -/
def eraseAssoc {α : Type} (k : String) : List (String × α) → List (String × α)
  | [] => []
  | (k', v') :: rest => if k' = k then eraseAssoc k rest else (k', v') :: eraseAssoc k rest

/-- The filesystem as far as the store observes it: the set of existing
directories and the files with their contents. -/
structure FileSys where
  dirs : List String
  files : List (String × String)
  deriving DecidableEq

/-- Write (create or overwrite) a file. -/
def fsWrite (fs : FileSys) (p c : String) : FileSys :=
  { fs with files := setAssoc p c fs.files }

/-- Look a file up by path. -/
def lookupFile (fs : FileSys) (p : String) : Option String :=
  lookupAssoc p fs.files

/-- Recursive removal of a directory: the directory itself and every file
under it disappear (`afero.RemoveAll`). -/
def fsRemoveDir (fs : FileSys) (dir : String) : FileSys :=
  { dirs := fs.dirs.filter (fun d => !(d == dir)),
    files := fs.files.filter (fun kv => !(matchesAt (dir ++ "/").toList kv.1.toList)) }

/-- The temp root returned by `fs.GetTempDir ""`; an abstract constant. -/
def tmpRoot : String := "/tmp"

/-- The per-resource workspace directory: `filepath.Join(tempDir, uid)`. -/
def wsDir (uid : String) : String := tmpRoot ++ "/" ++ uid

/-- The state file path: `filepath.Join(dir, "terraform.tfstate")`. -/
def tfstatePath (uid : String) : String := wsDir uid ++ "/terraform.tfstate"

/-- Modelled from the spec: the path of the main configuration file that the
File Producer's `WriteMainTF` materializes inside the workspace directory
(the File Producer itself is outside the excerpt). -/
def mainTFPath (uid : String) : String := wsDir uid ++ "/main.tf"

/-- The init lock file path: `filepath.Join(dir, ".terraform.lock.hcl")`. -/
def lockFilePath (uid : String) : String := wsDir uid ++ "/.terraform.lock.hcl"

/-- Modelled from the spec: the key of the attachment-handle environment
variable (`envReattachConfig`, defined next to the provider runner outside
the excerpt); only its presence and position matter to the claims. -/
def envReattachConfig : String := "TF_REATTACH_PROVIDERS"

/-- The `fmtEnv` format `"%s=%s"` of the source. -/
def fmtEnv (k v : String) : String := k ++ "=" ++ v

/-- One workspace handle.  `wid` is the allocation identity of the Go
`*Workspace` pointer: two handles denote the same heap object exactly when
their `wid`s agree. -/
structure Workspace where
  wid : Nat
  dir : String
  env : List String
  deriving DecidableEq

/-- The mutable state of a `WorkspaceStore`: the identity-to-workspace
registry, the allocation counter backing pointer identity, and the
filesystem the store works against. -/
structure WorkspaceStore where
  store : List (String × Workspace)
  nextId : Nat
  fs : FileSys
  deriving DecidableEq

/-- Outcomes of the fallible primitives for one entry-point call. `none`
means the primitive succeeds; `some e` carries the failure it reports. -/
structure Oracle where
  mkdirErr : Option String
  fileProducerErr : Option String
  statTfstateErr : Option String
  writeTFStateErr : Option String
  writeMainTFErr : Option String
  runnerStart : Except String String
  statLockErr : Option String
  initErr : Option String
  initOut : String
  removeAllErr : Option String

/-- The observable lock and I/O events of one entry-point call, in program
order. -/
inductive StoreEvent where
  | lockAcquire
  | lockRelease
  | mapRead
  | mapInsert
  | mapDelete
  | fsOp
  | procOp
  deriving DecidableEq

/-- Result of the pre-lock phase of `WorkspaceStore.Workspace` (lines
105-129 of store.go): the filesystem after the phase, the error that aborted
it (if any), the attachment handle obtained from the provider runner, and
the events performed. -/
structure PrepResult where
  fs : FileSys
  err : Option String
  attach : String
  trace : List StoreEvent
  deriving DecidableEq

/-- Result of a `WorkspaceStore.Workspace` call: the state afterwards, the
returned workspace pointer (`none` is Go's nil), the returned error, and the
event trace. -/
structure GetResult where
  state : WorkspaceStore
  ws : Option Workspace
  err : Option String
  trace : List StoreEvent
  deriving DecidableEq

/-- Result of a `WorkspaceStore.Remove` call. -/
structure RemoveResult where
  state : WorkspaceStore
  err : Option String
  trace : List StoreEvent
  deriving DecidableEq

/-- Tail of the pre-lock phase, from `WriteMainTF` (line 122) through
`providerRunner.Start()` (line 126): a `WriteMainTF` failure aborts with its
wrapped error, a runner-start failure is returned unwrapped (`return nil,
err`), success yields the attachment handle. -/
def wsGetPrep2 (fs2 : FileSys) (o : Oracle) (uid : String) (mainContent : String)
    (tr : List StoreEvent) : PrepResult :=
  match o.writeMainTFErr with
  | some e => ⟨fs2, some ("cannot write main tf file: " ++ e), "", tr ++ [StoreEvent.fsOp]⟩
  | none =>
    let fs3 := fsWrite fs2 (mainTFPath uid) mainContent
    match o.runnerStart with
    | Except.error e => ⟨fs3, some e, "", tr ++ [StoreEvent.fsOp, StoreEvent.procOp]⟩
    | Except.ok a => ⟨fs3, none, a, tr ++ [StoreEvent.fsOp, StoreEvent.procOp]⟩

/-- The pre-lock phase of `WorkspaceStore.Workspace` (lines 105-129):
`MkdirAll` (a no-op success when the directory already exists),
`NewFileProducer`, the `terraform.tfstate` stat, the conditional
`WriteTFState` reconstruction when and only when the state file is absent,
then `wsGetPrep2`.  Every failure is wrapped exactly as in the source. -/
def wsGetPrep (st : WorkspaceStore) (o : Oracle) (uid : String)
    (stateContent mainContent : String) : PrepResult :=
  match (if wsDir uid ∈ st.fs.dirs then none else o.mkdirErr) with
  | some e => ⟨st.fs, some ("cannot create directory for workspace: " ++ e), "", [StoreEvent.fsOp]⟩
  | none =>
    let fs1 := if wsDir uid ∈ st.fs.dirs then st.fs
               else { st.fs with dirs := wsDir uid :: st.fs.dirs }
    match o.fileProducerErr with
    | some e => ⟨fs1, some ("cannot create a new file producer: " ++ e), "",
                 [StoreEvent.fsOp, StoreEvent.procOp]⟩
    | none =>
      match o.statTfstateErr with
      | some e => ⟨fs1, some ("cannot stat terraform.tfstate file: " ++ e), "",
                   [StoreEvent.fsOp, StoreEvent.procOp, StoreEvent.fsOp]⟩
      | none =>
        match lookupFile fs1 (tfstatePath uid) with
        | some _ =>
          wsGetPrep2 fs1 o uid mainContent
            [StoreEvent.fsOp, StoreEvent.procOp, StoreEvent.fsOp]
        | none =>
          match o.writeTFStateErr with
          | some e => ⟨fs1, some ("cannot reproduce tfstate file: " ++ e), "",
                       [StoreEvent.fsOp, StoreEvent.procOp, StoreEvent.fsOp, StoreEvent.fsOp]⟩
          | none =>
            wsGetPrep2 (fsWrite fs1 (tfstatePath uid) stateContent) o uid mainContent
              [StoreEvent.fsOp, StoreEvent.procOp, StoreEvent.fsOp, StoreEvent.fsOp]

/-- The post-lock tail of `WorkspaceStore.Workspace` (lines 137-152), for
the workspace `w` found or just inserted, the registry `store1` and
allocation counter `next1` as left by the locked section: stat the init lock
file (a failure there returns nil plus the wrapped error, with the
registration already done), assign the environment (the setup's variables
with the attachment-handle variable appended, stored through the shared
handle), return with a nil error when the lock file exists, and otherwise
run `terraform init` and return the workspace together with the wrapped init
error, nil when init succeeded. -/
def wsGetCore2 (fs : FileSys) (o : Oracle) (uid : String) (tsEnv : List String)
    (attach : String) (w : Workspace) (store1 : List (String × Workspace)) (next1 : Nat)
    (tr1 : List StoreEvent) : GetResult :=
  match o.statLockErr with
  | some e =>
    ⟨{ store := store1, nextId := next1, fs := fs }, none,
     some ("cannot stat init lock file: " ++ e), tr1 ++ [StoreEvent.fsOp]⟩
  | none =>
    let w' : Workspace := { w with env := tsEnv ++ [fmtEnv envReattachConfig attach] }
    let st2 : WorkspaceStore := { store := setAssoc uid w' store1, nextId := next1, fs := fs }
    match lookupFile fs (lockFilePath uid) with
    | some _ => ⟨st2, some w', none, tr1 ++ [StoreEvent.fsOp]⟩
    | none =>
      ⟨st2, some w',
       o.initErr.map (fun e => "cannot init workspace: " ++ o.initOut ++ ": " ++ e),
       tr1 ++ [StoreEvent.fsOp, StoreEvent.procOp]⟩

/-- The locked section of `WorkspaceStore.Workspace` (lines 130-136): under
the lock, look the identity up; only when it is absent, construct a fresh
workspace (a fresh allocation identity) and insert it; then continue with
the post-lock tail. -/
def wsGetCore (st : WorkspaceStore) (o : Oracle) (uid : String) (tsEnv : List String)
    (attach : String) (tr : List StoreEvent) : GetResult :=
  match lookupAssoc uid st.store with
  | some w0 =>
    wsGetCore2 st.fs o uid tsEnv attach w0 st.store st.nextId
      (tr ++ [StoreEvent.lockAcquire, StoreEvent.mapRead, StoreEvent.lockRelease])
  | none =>
    wsGetCore2 st.fs o uid tsEnv attach ⟨st.nextId, wsDir uid, []⟩
      ((uid, (⟨st.nextId, wsDir uid, []⟩ : Workspace)) :: st.store) (st.nextId + 1)
      (tr ++ [StoreEvent.lockAcquire, StoreEvent.mapRead, StoreEvent.mapInsert,
        StoreEvent.lockRelease])

/-- `WorkspaceStore.Workspace` of the source: the pre-lock phase followed,
when it did not abort, by the locked section and tail. -/
def WorkspaceStore.Workspace (st : WorkspaceStore) (o : Oracle) (uid : String)
    (tsEnv : List String) (stateContent mainContent : String) : GetResult :=
  let p := wsGetPrep st o uid stateContent mainContent
  match p.err with
  | some e => ⟨{ st with fs := p.fs }, none, some e, p.trace⟩
  | none => wsGetCore { st with fs := p.fs } o uid tsEnv p.attach p.trace

/-- `WorkspaceStore.Remove` of the source: under the lock (held to the end
of the call by `defer`), look the identity up; absent means immediate
success; otherwise remove the directory recursively, keeping the registry
entry and reporting the wrapped error when removal fails, and erasing the
entry when removal succeeds. -/
def WorkspaceStore.Remove (st : WorkspaceStore) (o : Oracle) (uid : String) : RemoveResult :=
  match lookupAssoc uid st.store with
  | none => ⟨st, none, [StoreEvent.lockAcquire, StoreEvent.mapRead, StoreEvent.lockRelease]⟩
  | some w =>
    match o.removeAllErr with
    | some e =>
      ⟨st, some ("cannot remove workspace folder: " ++ e),
       [StoreEvent.lockAcquire, StoreEvent.mapRead, StoreEvent.fsOp, StoreEvent.lockRelease]⟩
    | none =>
      ⟨{ store := eraseAssoc uid st.store, nextId := st.nextId, fs := fsRemoveDir st.fs w.dir },
       none,
       [StoreEvent.lockAcquire, StoreEvent.mapRead, StoreEvent.fsOp, StoreEvent.mapDelete,
        StoreEvent.lockRelease]⟩

/-- Whether a trace holds the mutual-exclusion guard only around map
operations: scanning with the current lock state, a filesystem or process
I/O event is allowed only while unlocked. -/
def lockedOnlyMapOps : Bool → List StoreEvent → Bool
  | _, [] => true
  | _, StoreEvent.lockAcquire :: rest => lockedOnlyMapOps true rest
  | _, StoreEvent.lockRelease :: rest => lockedOnlyMapOps false rest
  | locked, StoreEvent.mapRead :: rest => lockedOnlyMapOps locked rest
  | locked, StoreEvent.mapInsert :: rest => lockedOnlyMapOps locked rest
  | locked, StoreEvent.mapDelete :: rest => lockedOnlyMapOps locked rest
  | locked, StoreEvent.fsOp :: rest => !locked && lockedOnlyMapOps locked rest
  | locked, StoreEvent.procOp :: rest => !locked && lockedOnlyMapOps locked rest

/-- Helper for `lockBracketed`: the trace after the initial acquire must end
in the matching release with no other lock event in between. -/
def lockBracketedTail : List StoreEvent → Bool
  | [] => false
  | [StoreEvent.lockRelease] => true
  | StoreEvent.lockAcquire :: _ => false
  | StoreEvent.lockRelease :: _ :: _ => false
  | _ :: rest => lockBracketedTail rest

/-- Whether a trace is one single critical section covering the whole call:
it acquires the lock first, releases it last, and neither acquires nor
releases in between. -/
def lockBracketed (tr : List StoreEvent) : Bool :=
  match tr with
  | StoreEvent.lockAcquire :: rest => lockBracketedTail rest
  | _ => false

/-! ### Concrete example data used by witnesses -/

/-- An oracle in which every primitive succeeds. -/
def oracleOk : Oracle :=
  ⟨none, none, none, none, none, Except.ok "grpc-handle", none, none, "init done", none⟩

/-- A registered workspace for resource identity `abc-123`. -/
def ws0 : Workspace := ⟨0, wsDir "abc-123", []⟩

/-- A store state with `abc-123` registered and its directory present. -/
def st0 : WorkspaceStore := ⟨[("abc-123", ws0)], 1, ⟨[wsDir "abc-123"], []⟩⟩

/-- The empty store state. -/
def stEmpty : WorkspaceStore := ⟨[], 0, ⟨[], []⟩⟩

/-- An empty store whose filesystem already holds a state file for
`abc-123`. -/
def stPre : WorkspaceStore :=
  ⟨[], 0, ⟨[wsDir "abc-123"], [(tfstatePath "abc-123", "old-state")]⟩⟩

/-- An empty store whose filesystem already holds the init lock file for
`abc-123`. -/
def stLock : WorkspaceStore :=
  ⟨[], 0, ⟨[], [(lockFilePath "abc-123", "locked")]⟩⟩

/-- An oracle in which only the recursive directory removal fails. -/
def oracleRemoveFail : Oracle :=
  ⟨none, none, none, none, none, Except.ok "grpc-handle", none, none, "init done",
   some "disk error"⟩

/-- An oracle in which only the `terraform init` command fails. -/
def oracleInitFail : Oracle :=
  ⟨none, none, none, none, none, Except.ok "grpc-handle", none, some "exit status 1",
   "init output", none⟩

/-- A setup whose configuration body holds the single string value `"E"`,
a letter of the marker itself. -/
def tsBad : Setup := ⟨"", ⟨"", ""⟩, [ConfigValue.str ['E']], []⟩

/-- A setup whose configuration body holds the single string value
`"secret"`, which shares no character with the marker. -/
def tsGood : Setup := ⟨"", ⟨"", ""⟩, [ConfigValue.str "secret".toList], []⟩

/-! ### Association-list lemmas -/

theorem lookupAssoc_set_self {α : Type} (k : String) (v : α) (l : List (String × α)) :
    lookupAssoc k (setAssoc k v l) = some v := by
  induction l with
  | nil => simp [lookupAssoc, setAssoc]
  | cons kv rest ih =>
    by_cases h : kv.1 = k <;> simp [lookupAssoc, setAssoc, h, ih]

theorem lookupAssoc_set_ne {α : Type} (k k' : String) (v : α) (l : List (String × α))
    (h : k ≠ k') : lookupAssoc k' (setAssoc k v l) = lookupAssoc k' l := by
  induction l with
  | nil => simp [lookupAssoc, setAssoc, h]
  | cons kv rest ih =>
    by_cases hk : kv.1 = k
    · simp [lookupAssoc, setAssoc, hk, h, Ne.symm h]
    · simp only [setAssoc, if_neg hk, lookupAssoc]
      by_cases hk' : kv.1 = k' <;> simp [hk', ih]

theorem lookupAssoc_erase_self {α : Type} (k : String) (l : List (String × α)) :
    lookupAssoc k (eraseAssoc k l) = none := by
  induction l with
  | nil => rfl
  | cons kv rest ih =>
    by_cases h : kv.1 = k <;> simp [eraseAssoc, lookupAssoc, h, ih]

/-! ### Path facts -/

theorem tfstatePath_ne_mainTFPath (uid : String) : tfstatePath uid ≠ mainTFPath uid := by
  intro h
  have h1 := congrArg String.length h
  rw [tfstatePath, mainTFPath, String.length_append, String.length_append] at h1
  have e1 : "/terraform.tfstate".length = 18 := by decide
  have e2 : "/main.tf".length = 8 := by decide
  rw [e1, e2] at h1
  omega

theorem lockFilePath_ne_tfstatePath (uid : String) : lockFilePath uid ≠ tfstatePath uid := by
  intro h
  have h1 := congrArg String.length h
  rw [lockFilePath, tfstatePath, String.length_append, String.length_append] at h1
  have e1 : "/.terraform.lock.hcl".length = 20 := by decide
  have e2 : "/terraform.tfstate".length = 18 := by decide
  rw [e1, e2] at h1
  omega

theorem lockFilePath_ne_mainTFPath (uid : String) : lockFilePath uid ≠ mainTFPath uid := by
  intro h
  have h1 := congrArg String.length h
  rw [lockFilePath, mainTFPath, String.length_append, String.length_append] at h1
  have e1 : "/.terraform.lock.hcl".length = 20 := by decide
  have e2 : "/main.tf".length = 8 := by decide
  rw [e1, e2] at h1
  omega

/-! ### Behaviour of the pre-lock phase and the locked tail -/

theorem lookupFile_write_ne (fs : FileSys) (p q c : String) (h : p ≠ q) :
    lookupFile (fsWrite fs p c) q = lookupFile fs q :=
  lookupAssoc_set_ne p q c fs.files h

theorem wsGetPrep_success (st : WorkspaceStore) (o : Oracle) (uid : String)
    (sc mc a : String)
    (h1 : wsDir uid ∈ st.fs.dirs ∨ o.mkdirErr = none) (h2 : o.fileProducerErr = none)
    (h3 : o.statTfstateErr = none) (h4 : o.writeTFStateErr = none)
    (h5 : o.writeMainTFErr = none) (h6 : o.runnerStart = Except.ok a) :
    (wsGetPrep st o uid sc mc).err = none
    ∧ (wsGetPrep st o uid sc mc).attach = a
    ∧ lookupFile (wsGetPrep st o uid sc mc).fs (lockFilePath uid)
        = lookupFile st.fs (lockFilePath uid) := by
  have hmk : (if wsDir uid ∈ st.fs.dirs then none else o.mkdirErr) = none := by
    by_cases hmem : wsDir uid ∈ st.fs.dirs
    · rw [if_pos hmem]
    · rw [if_neg hmem]
      rcases h1 with h | h
      · exact absurd h hmem
      · exact h
  simp only [wsGetPrep, wsGetPrep2, hmk, h2, h3, h4, h5, h6]
  split
  · refine ⟨rfl, rfl, ?_⟩
    rw [lookupFile_write_ne _ _ _ _ (Ne.symm (lockFilePath_ne_mainTFPath uid))]
    by_cases hmem : wsDir uid ∈ st.fs.dirs
    · rw [if_pos hmem]
    · rw [if_neg hmem]
      rfl
  · refine ⟨rfl, rfl, ?_⟩
    rw [lookupFile_write_ne _ _ _ _ (Ne.symm (lockFilePath_ne_mainTFPath uid)),
      lookupFile_write_ne _ _ _ _ (Ne.symm (lockFilePath_ne_tfstatePath uid))]
    by_cases hmem : wsDir uid ∈ st.fs.dirs
    · rw [if_pos hmem]
    · rw [if_neg hmem]
      rfl

theorem wsGetPrep_dir_mem (st : WorkspaceStore) (o : Oracle) (uid : String) (sc mc : String) :
    (wsGetPrep st o uid sc mc).err = none → wsDir uid ∈ (wsGetPrep st o uid sc mc).fs.dirs := by
  simp only [wsGetPrep, wsGetPrep2]
  repeat' split
  all_goals intro h
  all_goals first
    | exact Option.noConfusion h
    | assumption
    | exact List.mem_cons_self _ _

theorem wsGetPrep_tfstate_preserved (st : WorkspaceStore) (o : Oracle) (uid : String)
    (sc mc c : String) (hc : lookupFile st.fs (tfstatePath uid) = some c) :
    lookupFile (wsGetPrep st o uid sc mc).fs (tfstatePath uid) = some c := by
  simp only [wsGetPrep, wsGetPrep2]
  repeat' split
  all_goals first
    | exact hc
    | (rw [lookupFile_write_ne _ _ _ _ (Ne.symm (tfstatePath_ne_mainTFPath uid))]
       exact hc)
    | simp_all [lookupFile]

theorem wsGetPrep_mkdir_irrelevant (st : WorkspaceStore) (o : Oracle) (uid : String)
    (sc mc : String) (hmem : wsDir uid ∈ st.fs.dirs) :
    wsGetPrep st o uid sc mc = wsGetPrep st { o with mkdirErr := none } uid sc mc := by
  simp only [wsGetPrep, wsGetPrep2, if_pos hmem]

theorem wsGetPrep_trace_locked (st : WorkspaceStore) (o : Oracle) (uid : String)
    (sc mc : String) (b : List StoreEvent) :
    lockedOnlyMapOps false ((wsGetPrep st o uid sc mc).trace ++ b)
      = lockedOnlyMapOps false b := by
  simp only [wsGetPrep, wsGetPrep2]
  repeat' split
  all_goals simp [lockedOnlyMapOps]

theorem wsGetPrep_attach (st : WorkspaceStore) (o : Oracle) (uid : String)
    (sc mc a : String) (hr : o.runnerStart = Except.ok a) :
    (wsGetPrep st o uid sc mc).err = none → (wsGetPrep st o uid sc mc).attach = a := by
  simp only [wsGetPrep, wsGetPrep2, hr]
  repeat' split
  all_goals intro h
  all_goals first
    | exact Option.noConfusion h
    | rfl

theorem wsGetCore2_some (fs : FileSys) (o : Oracle) (uid : String) (tsEnv : List String)
    (attach : String) (w : Workspace) (store1 : List (String × Workspace)) (next1 : Nat)
    (tr1 : List StoreEvent) :
    ∀ w', (wsGetCore2 fs o uid tsEnv attach w store1 next1 tr1).ws = some w' →
      w'.wid = w.wid
      ∧ w'.env = tsEnv ++ [fmtEnv envReattachConfig attach]
      ∧ (wsGetCore2 fs o uid tsEnv attach w store1 next1 tr1).state.store
          = setAssoc uid w' store1
      ∧ (wsGetCore2 fs o uid tsEnv attach w store1 next1 tr1).state.nextId = next1 := by
  simp only [wsGetCore2]
  repeat' split
  all_goals intro w' h
  all_goals first
    | exact Option.noConfusion h
    | (cases h
       exact ⟨rfl, rfl, rfl, rfl⟩)

theorem wsGetCore2_err (fs : FileSys) (o : Oracle) (uid : String) (tsEnv : List String)
    (attach : String) (w : Workspace) (store1 : List (String × Workspace)) (next1 : Nat)
    (tr1 : List StoreEvent) (h : o.statLockErr = none) :
    (wsGetCore2 fs o uid tsEnv attach w store1 next1 tr1).ws.isSome = true
    ∧ (lookupFile fs (lockFilePath uid) = none →
        (wsGetCore2 fs o uid tsEnv attach w store1 next1 tr1).err
          = o.initErr.map (fun e => "cannot init workspace: " ++ o.initOut ++ ": " ++ e))
    ∧ (∀ c, lookupFile fs (lockFilePath uid) = some c →
        (wsGetCore2 fs o uid tsEnv attach w store1 next1 tr1).err = none) := by
  simp only [wsGetCore2, h]
  cases hf : lookupFile fs (lockFilePath uid) <;> simp [hf]

theorem wsGetCore2_trace (fs : FileSys) (o : Oracle) (uid : String) (tsEnv : List String)
    (attach : String) (w : Workspace) (store1 : List (String × Workspace)) (next1 : Nat)
    (tr1 : List StoreEvent)
    (H : ∀ b, lockedOnlyMapOps false (tr1 ++ b) = lockedOnlyMapOps false b) :
    lockedOnlyMapOps false (wsGetCore2 fs o uid tsEnv attach w store1 next1 tr1).trace
      = true := by
  simp only [wsGetCore2]
  repeat' split
  all_goals simp [H, lockedOnlyMapOps]

theorem wsGetCore_trace (st : WorkspaceStore) (o : Oracle) (uid : String)
    (tsEnv : List String) (attach : String) (tr : List StoreEvent)
    (H : ∀ b, lockedOnlyMapOps false (tr ++ b) = lockedOnlyMapOps false b) :
    lockedOnlyMapOps false (wsGetCore st o uid tsEnv attach tr).trace = true := by
  unfold wsGetCore
  split
  · refine wsGetCore2_trace _ _ _ _ _ _ _ _ _ ?_
    intro b
    rw [List.append_assoc, H]
    simp [lockedOnlyMapOps]
  · refine wsGetCore2_trace _ _ _ _ _ _ _ _ _ ?_
    intro b
    rw [List.append_assoc, H]
    simp [lockedOnlyMapOps]

theorem wsWorkspace_split (st : WorkspaceStore) (o : Oracle) (uid : String)
    (tsEnv : List String) (sc mc : String) :
    ((wsGetPrep st o uid sc mc).err = none
      ∧ WorkspaceStore.Workspace st o uid tsEnv sc mc
          = wsGetCore { st with fs := (wsGetPrep st o uid sc mc).fs } o uid tsEnv
              (wsGetPrep st o uid sc mc).attach (wsGetPrep st o uid sc mc).trace)
    ∨ (∃ e, (wsGetPrep st o uid sc mc).err = some e
      ∧ WorkspaceStore.Workspace st o uid tsEnv sc mc
          = ⟨{ st with fs := (wsGetPrep st o uid sc mc).fs }, none, some e,
             (wsGetPrep st o uid sc mc).trace⟩) := by
  simp only [WorkspaceStore.Workspace]
  cases h : (wsGetPrep st o uid sc mc).err with
  | none => exact Or.inl ⟨rfl, rfl⟩
  | some e => exact Or.inr ⟨e, rfl, rfl⟩

theorem wsWorkspace_fs (st : WorkspaceStore) (o : Oracle) (uid : String)
    (tsEnv : List String) (sc mc : String) :
    (WorkspaceStore.Workspace st o uid tsEnv sc mc).state.fs = (wsGetPrep st o uid sc mc).fs := by
  rcases wsWorkspace_split st o uid tsEnv sc mc with ⟨-, heq⟩ | ⟨e, -, heq⟩
  · rw [heq]
    unfold wsGetCore wsGetCore2
    repeat' split
    all_goals rfl
  · rw [heq]

theorem wsWorkspace_prep_ok (st : WorkspaceStore) (o : Oracle) (uid : String)
    (tsEnv : List String) (sc mc : String) :
    (WorkspaceStore.Workspace st o uid tsEnv sc mc).ws.isSome = true →
    (wsGetPrep st o uid sc mc).err = none := by
  rcases wsWorkspace_split st o uid tsEnv sc mc with ⟨hp, -⟩ | ⟨e, hp, heq⟩
  · intro _
    exact hp
  · intro h
    rw [heq] at h
    exact Bool.noConfusion h

theorem wsWorkspace_mkdir_irrelevant (st : WorkspaceStore) (o : Oracle) (uid : String)
    (tsEnv : List String) (sc mc : String) (hmem : wsDir uid ∈ st.fs.dirs) :
    WorkspaceStore.Workspace st o uid tsEnv sc mc
      = WorkspaceStore.Workspace st { o with mkdirErr := none } uid tsEnv sc mc := by
  simp only [WorkspaceStore.Workspace]
  rw [← wsGetPrep_mkdir_irrelevant st o uid sc mc hmem]
  rfl

/-! ### Substring and replacement lemmas for the redaction function -/

theorem redactedMarker_ne : redactedMarker ≠ [] := by decide

theorem matchesAt_self_append : ∀ P X : List Char, matchesAt P (P ++ X) = true
  | [], _ => rfl
  | p :: P', X => by
    simp only [List.cons_append, matchesAt, beq_self_eq_true, Bool.true_and]
    exact matchesAt_self_append P' X

theorem containsSub_of_matchesAt {v s : List Char} (h : matchesAt v s = true) :
    containsSub s v = true := by
  cases s with
  | nil => exact h
  | cons c rest => simp [containsSub, h]

theorem containsSub_cons_of {v s : List Char} (c : Char) (h : containsSub s v = true) :
    containsSub (c :: s) v = true := by
  simp [containsSub, h]

theorem containsSub_drop : ∀ (k : Nat) (s v : List Char),
    containsSub (List.drop k s) v = true → containsSub s v = true
  | 0, _, _ => fun h => h
  | _ + 1, [], _ => fun h => h
  | k + 1, c :: rest, v => fun h =>
    containsSub_cons_of c (containsSub_drop k rest v h)

theorem contains_append_disjoint : ∀ (M X v : List Char), (∀ a ∈ v, a ∉ M) → v ≠ [] →
    containsSub (M ++ X) v = containsSub X v
  | [], _, _ => fun _ _ => rfl
  | m :: M', X, v => fun hd hv => by
    cases v with
    | nil => exact absurd rfl hv
    | cons a v' =>
      have hne : (a == m) = false := by
        have hx : a ≠ m := fun he => hd a (by simp) (by simp [he])
        simp [hx]
      show (matchesAt (a :: v') (m :: (M' ++ X)) || containsSub (M' ++ X) (a :: v')) = _
      rw [show matchesAt (a :: v') (m :: (M' ++ X)) = false from by simp [matchesAt, hne]]
      rw [Bool.false_or]
      exact contains_append_disjoint M' X (a :: v')
        (fun b hb hbM => hd b hb (by simp [hbM])) hv

theorem matchesAt_replNE_fwd (u M : List Char) (hu : u ≠ []) :
    ∀ (s P : List Char), (∀ a ∈ u, a ∉ P) → matchesAt P s = true →
      matchesAt P (replNE u M s) = true
  | [], P => fun _ hm => by
    rw [replNE]
    exact hm
  | c :: rest, P => fun h hm => by
    rw [replNE]
    by_cases hmm : matchesAt u (c :: rest) = true
    · rw [if_pos hmm]
      cases P with
      | nil => rfl
      | cons p P' =>
        exfalso
        cases u with
        | nil => exact hu rfl
        | cons u0 u' =>
          have h1 : u0 = c := by
            simp only [matchesAt, Bool.and_eq_true, beq_iff_eq] at hmm
            exact hmm.1
          have h2 : p = c := by
            simp only [matchesAt, Bool.and_eq_true, beq_iff_eq] at hm
            exact hm.1
          exact h u0 (by simp) (by simp [h1, h2])
    · rw [if_neg hmm]
      cases P with
      | nil => rfl
      | cons p P' =>
        simp only [matchesAt, Bool.and_eq_true, beq_iff_eq] at hm ⊢
        exact ⟨hm.1, matchesAt_replNE_fwd u M hu rest P'
          (fun a ha hmem => h a ha (by simp [hmem])) hm.2⟩

theorem matchesAt_replNE_inv (u M : List Char) (hM : M ≠ []) :
    ∀ (s w : List Char), (∀ a ∈ w, a ∉ M) → matchesAt w (replNE u M s) = true →
      matchesAt w s = true
  | [], w => fun _ hm => by
    rw [replNE] at hm
    exact hm
  | c :: rest, w => fun h hm => by
    rw [replNE] at hm
    by_cases hmm : matchesAt u (c :: rest) = true
    · rw [if_pos hmm] at hm
      cases w with
      | nil => rfl
      | cons a w' =>
        exfalso
        cases M with
        | nil => exact hM rfl
        | cons m M' =>
          have h1 : a = m := by
            simp only [List.cons_append, matchesAt, Bool.and_eq_true, beq_iff_eq] at hm
            exact hm.1
          exact h a (by simp) (by simp [h1])
    · rw [if_neg hmm] at hm
      cases w with
      | nil => rfl
      | cons a w' =>
        simp only [matchesAt, Bool.and_eq_true, beq_iff_eq] at hm ⊢
        exact ⟨hm.1, matchesAt_replNE_inv u M hM rest w'
          (fun b hb => h b (by simp [hb])) hm.2⟩

theorem containsSub_replNE_inv (u M v : List Char) (hM : M ≠ []) (hd : ∀ a ∈ v, a ∉ M)
    (hv : v ≠ []) :
    ∀ s : List Char, containsSub (replNE u M s) v = true → containsSub s v = true
  | [] => fun hm => by
    rw [replNE] at hm
    exact hm
  | c :: rest => fun hm => by
    rw [replNE] at hm
    by_cases hmm : matchesAt u (c :: rest) = true
    · rw [if_pos hmm, contains_append_disjoint M _ v hd hv] at hm
      exact containsSub_cons_of c
        (containsSub_drop (u.length - 1) rest v
          (containsSub_replNE_inv u M v hM hd hv _ hm))
    · rw [if_neg hmm] at hm
      simp only [containsSub, Bool.or_eq_true] at hm
      rcases hm with h1 | h2
      · cases v with
        | nil => exact absurd rfl hv
        | cons a v' =>
          simp only [matchesAt, Bool.and_eq_true, beq_iff_eq] at h1
          have hmv' : matchesAt v' rest = true :=
            matchesAt_replNE_inv u M hM rest v' (fun b hb => hd b (by simp [hb])) h1.2
          exact containsSub_of_matchesAt (by simp [matchesAt, h1.1, hmv'])
      · exact containsSub_cons_of c (containsSub_replNE_inv u M v hM hd hv rest h2)
termination_by s => s.length
decreasing_by
  all_goals simp [List.length_drop]
  all_goals omega

theorem replNE_not_contains (v M : List Char) (hM : M ≠ []) (hd : ∀ a ∈ v, a ∉ M)
    (hv : v ≠ []) :
    ∀ s : List Char, containsSub (replNE v M s) v = false
  | [] => by
    rw [replNE]
    cases v with
    | nil => exact absurd rfl hv
    | cons a v' => rfl
  | c :: rest => by
    rw [replNE]
    by_cases hmm : matchesAt v (c :: rest) = true
    · rw [if_pos hmm, contains_append_disjoint M _ v hd hv]
      exact replNE_not_contains v M hM hd hv _
    · rw [if_neg hmm]
      show (matchesAt v (c :: replNE v M rest) || containsSub (replNE v M rest) v) = false
      rw [replNE_not_contains v M hM hd hv rest, Bool.or_false]
      cases hx : matchesAt v (c :: replNE v M rest) with
      | false => rfl
      | true =>
        exfalso
        cases v with
        | nil => exact absurd rfl hv
        | cons a v' =>
          simp only [matchesAt, Bool.and_eq_true, beq_iff_eq] at hx
          have hmv' : matchesAt v' rest = true :=
            matchesAt_replNE_inv (a :: v') M hM rest v'
              (fun b hb => hd b (by simp [hb])) hx.2
          exact hmm (by simp [matchesAt, hx.1, hmv'])
termination_by s => s.length
decreasing_by
  all_goals simp [List.length_drop]
  all_goals omega

theorem replNE_eq_of_not_contains (v M : List Char) :
    ∀ s : List Char, containsSub s v = false → replNE v M s = s
  | [] => fun _ => by rw [replNE]
  | c :: rest => fun h => by
    have h' := h
    simp only [containsSub, Bool.or_eq_false_iff] at h'
    rw [replNE, if_neg (by simp [h'.1]), replNE_eq_of_not_contains v M rest h'.2]

theorem replNE_contains_marker (v M : List Char) (hv : v ≠ []) :
    ∀ s : List Char, containsSub s v = true → containsSub (replNE v M s) M = true
  | [] => fun hm => by
    cases v with
    | nil => exact absurd rfl hv
    | cons a v' => exact Bool.noConfusion hm
  | c :: rest => fun hm => by
    rw [replNE]
    by_cases hmm : matchesAt v (c :: rest) = true
    · rw [if_pos hmm]
      exact containsSub_of_matchesAt (matchesAt_self_append M _)
    · rw [if_neg hmm]
      simp only [containsSub, Bool.or_eq_true] at hm
      rcases hm with h1 | h2
      · exact absurd h1 hmm
      · exact containsSub_cons_of c (replNE_contains_marker v M hv rest h2)

theorem replNE_preserves_marker (u M : List Char) (hu : u ≠ []) (hd : ∀ a ∈ u, a ∉ M) :
    ∀ s : List Char, containsSub s M = true → containsSub (replNE u M s) M = true
  | [] => fun hm => by
    rw [replNE]
    exact hm
  | c :: rest => fun hm => by
    rw [replNE]
    by_cases hmm : matchesAt u (c :: rest) = true
    · rw [if_pos hmm]
      exact containsSub_of_matchesAt (matchesAt_self_append M _)
    · rw [if_neg hmm]
      simp only [containsSub, Bool.or_eq_true] at hm
      rcases hm with h1 | h2
      · refine containsSub_of_matchesAt ?_
        cases M with
        | nil => rfl
        | cons m M' =>
          simp only [matchesAt, Bool.and_eq_true, beq_iff_eq] at h1 ⊢
          refine ⟨h1.1, matchesAt_replNE_fwd u (m :: M') hu rest M' ?_ h1.2⟩
          intro a ha hmem
          exact hd a ha (by simp [hmem])
      · exact containsSub_cons_of c (replNE_preserves_marker u M hu hd rest h2)

theorem goReplaceAll_of_ne (s u n : List Char) (hu : u ≠ []) :
    goReplaceAll s u n = replNE u n s := by
  cases u with
  | nil => exact absurd rfl hu
  | cons a u' => rfl

theorem charIn_iff (c : Char) : ∀ l : List Char, charIn c l = true ↔ c ∈ l
  | [] => by simp [charIn]
  | x :: xs => by simp [charIn, charIn_iff c xs]

theorem secretsDisjoint_spec (cfg : List ConfigValue) (h : secretsDisjoint cfg = true) :
    ∀ u, ConfigValue.str u ∈ cfg → ∀ a ∈ u, a ∉ redactedMarker := by
  intro u hu a ha hmem
  rw [secretsDisjoint, List.all_eq_true] at h
  have h2 : (u.all fun b => !charIn b redactedMarker) = true := h _ hu
  rw [List.all_eq_true] at h2
  have h3 : charIn a redactedMarker = true := (charIn_iff a redactedMarker).mpr hmem
  have h4 := h2 a ha
  rw [h3] at h4
  exact Bool.noConfusion h4

theorem redact_fold_preserves_free (v : List Char) (hd : ∀ a ∈ v, a ∉ redactedMarker)
    (hv : v ≠ []) :
    ∀ (cfg : List ConfigValue) (s : List Char), containsSub s v = false →
      containsSub (List.foldl redactOne s cfg) v = false
  | [], _ => fun h => h
  | x :: rest, s => fun h => by
    rw [List.foldl_cons]
    refine redact_fold_preserves_free v hd hv rest _ ?_
    cases x with
    | nonString => exact h
    | str u =>
      simp only [redactOne]
      by_cases hue : u = []
      · rw [if_pos hue]
        exact h
      · rw [if_neg hue, goReplaceAll_of_ne _ _ _ hue]
        cases hx : containsSub (replNE u redactedMarker s) v with
        | false => rfl
        | true =>
          exact absurd
            (containsSub_replNE_inv u redactedMarker v redactedMarker_ne hd hv s hx)
            (by simp [h])

theorem redact_fold_preserves_marker :
    ∀ cfg : List ConfigValue, (∀ u, ConfigValue.str u ∈ cfg → ∀ a ∈ u, a ∉ redactedMarker) →
    ∀ s : List Char, containsSub s redactedMarker = true →
      containsSub (List.foldl redactOne s cfg) redactedMarker = true
  | [], _, _ => fun h => h
  | x :: rest, hall, s => fun h => by
    rw [List.foldl_cons]
    refine redact_fold_preserves_marker rest (fun u hu => hall u (by simp [hu])) _ ?_
    cases x with
    | nonString => exact h
    | str u =>
      simp only [redactOne]
      by_cases hue : u = []
      · rw [if_pos hue]
        exact h
      · rw [if_neg hue, goReplaceAll_of_ne _ _ _ hue]
        exact replNE_preserves_marker u redactedMarker hue (hall u (by simp)) s h

theorem redact_fold_free :
    ∀ cfg : List ConfigValue, (∀ u, ConfigValue.str u ∈ cfg → ∀ a ∈ u, a ∉ redactedMarker) →
    ∀ v : List Char, ConfigValue.str v ∈ cfg → v ≠ [] →
    ∀ s : List Char, containsSub (List.foldl redactOne s cfg) v = false
  | [], _, v => fun hmem => absurd hmem (by simp)
  | x :: rest, hall, v => fun hmem hv s => by
    rw [List.foldl_cons]
    by_cases hx : x = ConfigValue.str v
    · subst hx
      have hd := hall v (by simp)
      refine redact_fold_preserves_free v hd hv rest _ ?_
      simp only [redactOne]
      rw [if_neg hv, goReplaceAll_of_ne _ _ _ hv]
      exact replNE_not_contains v redactedMarker redactedMarker_ne hd hv s
    · have hmem' : ConfigValue.str v ∈ rest := by
        rcases List.mem_cons.mp hmem with h | h
        · exact absurd h.symm hx
        · exact h
      exact redact_fold_free rest (fun u hu => hall u (by simp [hu])) v hmem' hv _

theorem redact_fold_marker :
    ∀ cfg : List ConfigValue, (∀ u, ConfigValue.str u ∈ cfg → ∀ a ∈ u, a ∉ redactedMarker) →
    ∀ v : List Char, ConfigValue.str v ∈ cfg → v ≠ [] →
    ∀ s : List Char, containsSub s v = true →
      containsSub (List.foldl redactOne s cfg) redactedMarker = true
  | [], _, v => fun hmem => absurd hmem (by simp)
  | x :: rest, hall, v => fun hmem hv s hs => by
    rw [List.foldl_cons]
    have hrest : ∀ u, ConfigValue.str u ∈ rest → ∀ a ∈ u, a ∉ redactedMarker :=
      fun u hu => hall u (by simp [hu])
    by_cases hx : x = ConfigValue.str v
    · subst hx
      simp only [redactOne]
      rw [if_neg hv, goReplaceAll_of_ne _ _ _ hv]
      exact redact_fold_preserves_marker rest hrest _
        (replNE_contains_marker v redactedMarker hv s hs)
    · have hmem' : ConfigValue.str v ∈ rest := by
        rcases List.mem_cons.mp hmem with h | h
        · exact absurd h.symm hx
        · exact h
      cases x with
      | nonString => exact redact_fold_marker rest hrest v hmem' hv s hs
      | str u =>
        simp only [redactOne]
        by_cases hue : u = []
        · rw [if_pos hue]
          exact redact_fold_marker rest hrest v hmem' hv s hs
        · rw [if_neg hue, goReplaceAll_of_ne _ _ _ hue]
          cases hcu : containsSub s u with
          | false =>
            rw [replNE_eq_of_not_contains u redactedMarker s hcu]
            exact redact_fold_marker rest hrest v hmem' hv s hs
          | true =>
            exact redact_fold_preserves_marker rest hrest _
              (replNE_contains_marker u redactedMarker hue s hcu)

/-! ### Claim C1: redaction completeness -/

/-- C1 counterexample: the claim asserts the redacted output never contains
a non-empty configuration string value, but redacting the output `"E"`
against a configuration whose string value is `"E"` yields the marker
`"REDACTED"`, which contains `"E"` — a configuration value that occurs
inside the marker survives redaction. -/
theorem c1_redaction_counterexample :
    tsBad.filterSensitiveInformation ['E'] = redactedMarker
    ∧ containsSub (tsBad.filterSensitiveInformation ['E']) ['E'] = true := by
  have h : tsBad.filterSensitiveInformation ['E'] = redactedMarker := by
    show List.foldl redactOne ['E'] [ConfigValue.str ['E']] = redactedMarker
    rw [List.foldl_cons, List.foldl_nil]
    simp only [redactOne]
    rw [if_neg (by decide), goReplaceAll_of_ne _ _ _ (by decide)]
    rw [replNE, if_pos (by decide)]
    rw [show List.drop (List.length ['E'] - 1) ([] : List Char) = [] from rfl]
    rw [replNE, List.append_nil]
  refine ⟨h, ?_⟩
  rw [h]
  decide

/-- C1 amended: provided no string value of the configuration body shares a
character with the marker `"REDACTED"`, the redacted output contains no
non-empty string value of the body as a substring, and whenever some
non-empty string value occurred in the captured output, the literal marker
occurs in the redacted output in place of the removed occurrences. (Without
the disjointness proviso the first part fails, because a value occurring
inside the marker — or recreated at a replacement boundary — survives.) -/
theorem c1_redaction_amended (ts : Setup) (s : List Char)
    (hall : secretsDisjoint ts.Configuration = true) :
    (∀ v, ConfigValue.str v ∈ ts.Configuration → v ≠ [] →
      containsSub (ts.filterSensitiveInformation s) v = false)
    ∧ (∀ v, ConfigValue.str v ∈ ts.Configuration → v ≠ [] → containsSub s v = true →
      containsSub (ts.filterSensitiveInformation s) redactedMarker = true) := by
  have hall' := secretsDisjoint_spec ts.Configuration hall
  exact ⟨fun v hm hv => redact_fold_free ts.Configuration hall' v hm hv s,
    fun v hm hv hs => redact_fold_marker ts.Configuration hall' v hm hv s hs⟩

/-- C1 witness: redacting `"my secret here"` against a configuration holding
the string value `"secret"` removes every occurrence of the secret and
leaves the marker. -/
theorem c1_redaction_amended_witness :
    containsSub (tsGood.filterSensitiveInformation "my secret here".toList)
        "secret".toList = false
    ∧ containsSub (tsGood.filterSensitiveInformation "my secret here".toList)
        redactedMarker = true :=
  ⟨(c1_redaction_amended tsGood "my secret here".toList (by decide)).1
      "secret".toList (by decide) (by decide),
   (c1_redaction_amended tsGood "my secret here".toList (by decide)).2
      "secret".toList (by decide) (by decide) (by decide)⟩

/-! ### Claim C3: pipeline-in-progress classification -/

/-- C3: `IsPipelineInProgress` classifies exactly the pipeline-in-progress
errors: wrapping any pipeline state with `NewPipelineInProgressError` and
classifying returns exactly that state with `true` (in particular for each
of the three states); a nil error, an operation-in-progress error and any
other leaf error classify as the `"invalid"` sentinel with `false`; and a
wrapping error classifies exactly as its cause, so the chain is walked and
no case is left to a panic (the classifier is a total function). -/
theorem c3_pipeline_classification :
    (∀ s : PipelineState, IsPipelineInProgress (some (NewPipelineInProgressError s)) = (s, true))
    ∧ IsPipelineInProgress (some (NewPipelineInProgressError PipelineNotStarted))
        = (PipelineNotStarted, true)
    ∧ IsPipelineInProgress (some (NewPipelineInProgressError PipelineStateLocked))
        = (PipelineStateLocked, true)
    ∧ IsPipelineInProgress (some (NewPipelineInProgressError PipelineStateNoStore))
        = (PipelineStateNoStore, true)
    ∧ IsPipelineInProgress none = ("invalid", false)
    ∧ (∀ op, IsPipelineInProgress (some (GoError.opInProgress op)) = ("invalid", false))
    ∧ (∀ m, IsPipelineInProgress (some (GoError.basic m)) = ("invalid", false))
    ∧ (∀ m e, IsPipelineInProgress (some (GoError.wrapped m e)) = IsPipelineInProgress (some e)) :=
  ⟨fun _ => rfl, rfl, rfl, rfl, rfl, fun _ => rfl, fun _ => rfl, fun _ _ => rfl⟩

/-! ### Claim C4: operation-in-progress classification -/

/-- C4 counterexample: the claim asserts that an apply-kinded
operation-in-progress error does not satisfy the generic `errors.Is`
relation against a destroy-kinded one, but the `Is` method of
`OperationInProgressError` checks only the dynamic type, so `errors.Is`
matches the two differently-kinded instances. -/
theorem c4_operation_is_counterexample :
    goErrorsIs (some (NewOperationInProgressError OperationType.apply))
      (some (NewOperationInProgressError OperationType.destroy)) = true := by
  decide

/-- C4 amended: an apply-kinded operation-in-progress error satisfies
`IsApplying` and not `IsDestroying`; the generic `errors.Is` relation
matches it against an operation-in-progress error of any kind, because the
`Is` method is a type check that ignores the kind; kind-sensitive
classification is done by `IsOperationInProgress` (and the two helpers built
on it), which compares the operation kind carried in the value — never the
message text — and walks wrapped causes. -/
theorem c4_operation_is_amended :
    IsApplying (some (NewOperationInProgressError OperationType.apply)) = true
    ∧ IsDestroying (some (NewOperationInProgressError OperationType.apply)) = false
    ∧ (∀ k k', goErrorsIs (some (NewOperationInProgressError k))
        (some (NewOperationInProgressError k')) = true)
    ∧ (∀ op target, IsOperationInProgress (some (GoError.opInProgress op)) target
        = (target == op))
    ∧ (∀ m e target, IsOperationInProgress (some (GoError.wrapped m e)) target
        = IsOperationInProgress (some e) target) := by
  refine ⟨rfl, rfl, fun k k' => ?_, fun op target => rfl, fun m e target => rfl⟩
  cases k <;> cases k' <;> decide

/-! ### Claim C5: removal failure preserves the registry entry -/

/-- C5: for a registered identity, when recursive directory deletion fails,
`WorkspaceStore.Remove` returns the wrapped error and leaves the whole store
state — in particular the registry entry — unchanged, so a retry can
re-attempt cleanup; the entry is erased only when deletion succeeds. -/
theorem c5_remove_failure_preserves_entry (st : WorkspaceStore) (o : Oracle) (uid : String)
    (w : Workspace) (e : String) (hw : lookupAssoc uid st.store = some w) :
    (o.removeAllErr = some e →
      (WorkspaceStore.Remove st o uid).err = some ("cannot remove workspace folder: " ++ e)
      ∧ (WorkspaceStore.Remove st o uid).state = st
      ∧ lookupAssoc uid (WorkspaceStore.Remove st o uid).state.store = some w)
    ∧ (o.removeAllErr = none →
      (WorkspaceStore.Remove st o uid).err = none
      ∧ lookupAssoc uid (WorkspaceStore.Remove st o uid).state.store = none) := by
  unfold WorkspaceStore.Remove
  rw [hw]
  constructor
  · intro he
    rw [he]
    exact ⟨rfl, rfl, hw⟩
  · intro he
    rw [he]
    exact ⟨rfl, lookupAssoc_erase_self uid st.store⟩

/-- C5 witness: a concrete registered identity whose directory removal
fails — the wrapped error is returned and the registry entry survives. -/
theorem c5_remove_failure_preserves_entry_witness :
    (WorkspaceStore.Remove st0 oracleRemoveFail "abc-123").err
        = some ("cannot remove workspace folder: " ++ "disk error")
    ∧ (WorkspaceStore.Remove st0 oracleRemoveFail "abc-123").state = st0
    ∧ lookupAssoc "abc-123" (WorkspaceStore.Remove st0 oracleRemoveFail "abc-123").state.store
        = some ws0 :=
  (c5_remove_failure_preserves_entry st0 oracleRemoveFail "abc-123" ws0 "disk error"
    (by decide)).1 rfl

/-! ### Claim C6: removal of an unregistered identity is a no-op success -/

/-- C6: for an identity with no registered workspace, `WorkspaceStore.Remove`
returns nil, leaves the entire store state (registry and filesystem)
unchanged, and performs no filesystem operation at all. -/
theorem c6_remove_absent_noop (st : WorkspaceStore) (o : Oracle) (uid : String)
    (h : lookupAssoc uid st.store = none) :
    (WorkspaceStore.Remove st o uid).state = st
    ∧ (WorkspaceStore.Remove st o uid).err = none
    ∧ StoreEvent.fsOp ∉ (WorkspaceStore.Remove st o uid).trace := by
  unfold WorkspaceStore.Remove
  rw [h]
  refine ⟨rfl, rfl, ?_⟩
  show StoreEvent.fsOp ∉ [StoreEvent.lockAcquire, StoreEvent.mapRead, StoreEvent.lockRelease]
  decide

/-- C6 witness: removing a never-registered identity from a concrete store. -/
theorem c6_remove_absent_noop_witness :
    (WorkspaceStore.Remove st0 oracleOk "other-uid").state = st0
    ∧ (WorkspaceStore.Remove st0 oracleOk "other-uid").err = none
    ∧ StoreEvent.fsOp ∉ (WorkspaceStore.Remove st0 oracleOk "other-uid").trace :=
  c6_remove_absent_noop st0 oracleOk "other-uid" (by decide)

/-! ### Claim C2: at-most-once construction and stable identity -/

/-- C2: when the identity is absent from the registry, a
`WorkspaceStore.Workspace` call that returns a workspace constructs exactly
one fresh workspace (the allocation counter advances by exactly one and the
returned handle carries the fresh allocation identity) and registers it;
when the identity is already registered, any call that returns a workspace
returns the registered instance (the same allocation identity, i.e. the same
Go pointer) and allocates nothing. -/
theorem c2_workspace_identity (st : WorkspaceStore) (o : Oracle) (uid : String)
    (tsEnv : List String) (sc mc : String) :
    (lookupAssoc uid st.store = none →
      ∀ w, (WorkspaceStore.Workspace st o uid tsEnv sc mc).ws = some w →
        w.wid = st.nextId
        ∧ (WorkspaceStore.Workspace st o uid tsEnv sc mc).state.nextId = st.nextId + 1
        ∧ lookupAssoc uid (WorkspaceStore.Workspace st o uid tsEnv sc mc).state.store = some w)
    ∧ (∀ w0, lookupAssoc uid st.store = some w0 →
      ∀ w, (WorkspaceStore.Workspace st o uid tsEnv sc mc).ws = some w →
        w.wid = w0.wid
        ∧ (WorkspaceStore.Workspace st o uid tsEnv sc mc).state.nextId = st.nextId
        ∧ lookupAssoc uid (WorkspaceStore.Workspace st o uid tsEnv sc mc).state.store = some w) := by
  rcases wsWorkspace_split st o uid tsEnv sc mc with ⟨-, heq⟩ | ⟨e, -, heq⟩
  · rw [heq]
    unfold wsGetCore
    constructor
    · intro habs w hw
      rw [show ({ st with fs := (wsGetPrep st o uid sc mc).fs } : WorkspaceStore).store
          = st.store from rfl, habs] at hw ⊢
      obtain ⟨hwid, -, hstore, hnext⟩ := wsGetCore2_some _ _ _ _ _ _ _ _ _ w hw
      refine ⟨hwid, hnext, ?_⟩
      rw [hstore]
      exact lookupAssoc_set_self uid w _
    · intro w0 hpres w hw
      rw [show ({ st with fs := (wsGetPrep st o uid sc mc).fs } : WorkspaceStore).store
          = st.store from rfl, hpres] at hw ⊢
      obtain ⟨hwid, -, hstore, hnext⟩ := wsGetCore2_some _ _ _ _ _ _ _ _ _ w hw
      refine ⟨hwid, hnext, ?_⟩
      rw [hstore]
      exact lookupAssoc_set_self uid w _
  · rw [heq]
    constructor
    · intro _ w hw
      exact Option.noConfusion hw
    · intro w0 _ w hw
      exact Option.noConfusion hw

/-- C2 witness: the first successful call on the empty store returns the
freshly allocated workspace with identity 0, advances the counter to 1, and
registers that same workspace. -/
theorem c2_workspace_identity_witness :
    (⟨0, wsDir "abc-123", [fmtEnv envReattachConfig "grpc-handle"]⟩ : Workspace).wid
        = stEmpty.nextId
    ∧ (WorkspaceStore.Workspace stEmpty oracleOk "abc-123" [] "state" "main").state.nextId
        = stEmpty.nextId + 1
    ∧ lookupAssoc "abc-123"
        (WorkspaceStore.Workspace stEmpty oracleOk "abc-123" [] "state" "main").state.store
        = some ⟨0, wsDir "abc-123", [fmtEnv envReattachConfig "grpc-handle"]⟩ :=
  (c2_workspace_identity stEmpty oracleOk "abc-123" [] "state" "main").1 (by decide)
    ⟨0, wsDir "abc-123", [fmtEnv envReattachConfig "grpc-handle"]⟩ (by decide)

/-! ### Claim C7: state-file reconstruction only when absent, idempotent reruns -/

/-- C7: a call that finds a pre-existing `terraform.tfstate` leaves that file
untouched (same content afterwards, so it is never overwritten with a
reconstructed one); and after a call that returned a workspace, a second
call for the same identity is insensitive to the directory-creation
outcome — the directory already exists, `MkdirAll` is a no-op success, so
the rerun can never fail on directory creation. -/
theorem c7_tfstate_and_idempotence (st : WorkspaceStore) (o1 o2 : Oracle) (uid : String)
    (tsEnv1 tsEnv2 : List String) (sc1 mc1 sc2 mc2 c : String) :
    (lookupFile st.fs (tfstatePath uid) = some c →
      lookupFile (WorkspaceStore.Workspace st o1 uid tsEnv1 sc1 mc1).state.fs
        (tfstatePath uid) = some c)
    ∧ ((WorkspaceStore.Workspace st o1 uid tsEnv1 sc1 mc1).ws.isSome = true →
      WorkspaceStore.Workspace (WorkspaceStore.Workspace st o1 uid tsEnv1 sc1 mc1).state
          o2 uid tsEnv2 sc2 mc2
        = WorkspaceStore.Workspace (WorkspaceStore.Workspace st o1 uid tsEnv1 sc1 mc1).state
            { o2 with mkdirErr := none } uid tsEnv2 sc2 mc2) := by
  constructor
  · intro hc
    rw [wsWorkspace_fs]
    exact wsGetPrep_tfstate_preserved st o1 uid sc1 mc1 c hc
  · intro h
    have hperr := wsWorkspace_prep_ok st o1 uid tsEnv1 sc1 mc1 h
    have hmem : wsDir uid ∈ (WorkspaceStore.Workspace st o1 uid tsEnv1 sc1 mc1).state.fs.dirs := by
      rw [wsWorkspace_fs]
      exact wsGetPrep_dir_mem st o1 uid sc1 mc1 hperr
    exact wsWorkspace_mkdir_irrelevant _ o2 uid tsEnv2 sc2 mc2 hmem

/-- C7 witness: a concrete store that already holds a state file with known
content — the first call keeps the old content, and the rerun after the
first successful call is insensitive to the directory-creation outcome. -/
theorem c7_tfstate_and_idempotence_witness :
    lookupFile (WorkspaceStore.Workspace stPre oracleOk "abc-123" [] "state" "main").state.fs
      (tfstatePath "abc-123") = some "old-state"
    ∧ WorkspaceStore.Workspace
          (WorkspaceStore.Workspace stPre oracleOk "abc-123" [] "state" "main").state
          oracleOk "abc-123" [] "state2" "main2"
        = WorkspaceStore.Workspace
            (WorkspaceStore.Workspace stPre oracleOk "abc-123" [] "state" "main").state
            { oracleOk with mkdirErr := none } "abc-123" [] "state2" "main2" :=
  ⟨(c7_tfstate_and_idempotence stPre oracleOk oracleOk "abc-123" [] [] "state" "main" "state2"
      "main2" "old-state").1 (by decide),
   (c7_tfstate_and_idempotence stPre oracleOk oracleOk "abc-123" [] [] "state" "main" "state2"
      "main2" "old-state").2 (by decide)⟩

/-! ### Claim C8: the environment is exactly the setup's plus the handle -/

/-- C8: whenever `WorkspaceStore.Workspace` returns a workspace, that
workspace's environment list is exactly the setup's declared environment
variables followed by the single attachment-handle variable `KEY=VALUE`
appended last, and the registered entry is that same workspace — the
environment is reassigned from the setup on every call, so repeated calls
never accumulate duplicate entries. -/
theorem c8_env_exactly (st : WorkspaceStore) (o : Oracle) (uid : String)
    (tsEnv : List String) (sc mc a : String) (hr : o.runnerStart = Except.ok a) :
    ∀ w, (WorkspaceStore.Workspace st o uid tsEnv sc mc).ws = some w →
      w.env = tsEnv ++ [fmtEnv envReattachConfig a]
      ∧ lookupAssoc uid (WorkspaceStore.Workspace st o uid tsEnv sc mc).state.store = some w := by
  rcases wsWorkspace_split st o uid tsEnv sc mc with ⟨hperr, heq⟩ | ⟨e, -, heq⟩
  · have hatt := wsGetPrep_attach st o uid sc mc a hr hperr
    rw [heq, hatt]
    unfold wsGetCore
    cases hst : lookupAssoc uid
        ({ st with fs := (wsGetPrep st o uid sc mc).fs } : WorkspaceStore).store with
    | some w0 =>
      intro w hw
      obtain ⟨-, henv, hstore, -⟩ := wsGetCore2_some _ _ _ _ _ _ _ _ _ w hw
      refine ⟨henv, ?_⟩
      rw [hstore]
      exact lookupAssoc_set_self uid w _
    | none =>
      intro w hw
      obtain ⟨-, henv, hstore, -⟩ := wsGetCore2_some _ _ _ _ _ _ _ _ _ w hw
      refine ⟨henv, ?_⟩
      rw [hstore]
      exact lookupAssoc_set_self uid w _
  · rw [heq]
    intro w hw
    exact Option.noConfusion hw

/-- C8 witness: a concrete successful call whose returned workspace carries
exactly the two setup variables plus the attachment-handle variable last. -/
theorem c8_env_exactly_witness :
    (⟨0, wsDir "abc-123", ["A=1", "B=2", fmtEnv envReattachConfig "grpc-handle"]⟩
        : Workspace).env
      = ["A=1", "B=2"] ++ [fmtEnv envReattachConfig "grpc-handle"]
    ∧ lookupAssoc "abc-123"
        (WorkspaceStore.Workspace stEmpty oracleOk "abc-123" ["A=1", "B=2"] "state"
          "main").state.store
        = some ⟨0, wsDir "abc-123", ["A=1", "B=2", fmtEnv envReattachConfig "grpc-handle"]⟩ :=
  c8_env_exactly stEmpty oracleOk "abc-123" ["A=1", "B=2"] "state" "main" "grpc-handle" rfl
    ⟨0, wsDir "abc-123", ["A=1", "B=2", fmtEnv envReattachConfig "grpc-handle"]⟩ (by decide)

/-! ### Claim C10: init outcome propagation -/

/-- C10: when every step up to and including the lock-file stat succeeds,
`WorkspaceStore.Workspace` returns a non-nil workspace; if the init lock
file is absent (the directory needs initialization) the returned error is
exactly the wrapped init outcome — non-nil exactly when `terraform init`
failed — while a present lock file skips init and yields a nil error. -/
theorem c10_init_outcome (st : WorkspaceStore) (o : Oracle) (uid : String)
    (tsEnv : List String) (sc mc a : String)
    (h1 : wsDir uid ∈ st.fs.dirs ∨ o.mkdirErr = none) (h2 : o.fileProducerErr = none)
    (h3 : o.statTfstateErr = none) (h4 : o.writeTFStateErr = none)
    (h5 : o.writeMainTFErr = none) (h6 : o.runnerStart = Except.ok a)
    (h7 : o.statLockErr = none) :
    (WorkspaceStore.Workspace st o uid tsEnv sc mc).ws.isSome = true
    ∧ (lookupFile st.fs (lockFilePath uid) = none →
        (WorkspaceStore.Workspace st o uid tsEnv sc mc).err
          = o.initErr.map (fun e => "cannot init workspace: " ++ o.initOut ++ ": " ++ e))
    ∧ (∀ c, lookupFile st.fs (lockFilePath uid) = some c →
        (WorkspaceStore.Workspace st o uid tsEnv sc mc).err = none) := by
  obtain ⟨hperr, -, hlock⟩ := wsGetPrep_success st o uid sc mc a h1 h2 h3 h4 h5 h6
  rcases wsWorkspace_split st o uid tsEnv sc mc with ⟨-, heq⟩ | ⟨e, hsome, -⟩
  · rw [heq]
    unfold wsGetCore
    cases hst : lookupAssoc uid
        ({ st with fs := (wsGetPrep st o uid sc mc).fs } : WorkspaceStore).store with
    | some w0 =>
      obtain ⟨hws, hinit, hskip⟩ := wsGetCore2_err _ o uid tsEnv _ _ _ _ _ h7
      refine ⟨hws, ?_, ?_⟩
      · intro hn
        exact hinit (by rw [hlock]; exact hn)
      · intro c hc
        exact hskip c (by rw [hlock]; exact hc)
    | none =>
      obtain ⟨hws, hinit, hskip⟩ := wsGetCore2_err _ o uid tsEnv _ _ _ _ _ h7
      refine ⟨hws, ?_, ?_⟩
      · intro hn
        exact hinit (by rw [hlock]; exact hn)
      · intro c hc
        exact hskip c (by rw [hlock]; exact hc)
  · rw [hperr] at hsome
    exact Option.noConfusion hsome

/-- C10 witness: on a concrete run with an absent lock file and a failing
init, the call returns a workspace together with the wrapped init error; on
a run with the lock file present, the same failing-init oracle yields a nil
error because init is skipped. -/
theorem c10_init_outcome_witness :
    (WorkspaceStore.Workspace stEmpty oracleInitFail "abc-123" [] "state" "main").ws.isSome = true
    ∧ (WorkspaceStore.Workspace stEmpty oracleInitFail "abc-123" [] "state" "main").err
        = oracleInitFail.initErr.map
            (fun e => "cannot init workspace: " ++ oracleInitFail.initOut ++ ": " ++ e)
    ∧ (WorkspaceStore.Workspace stLock oracleInitFail "abc-123" [] "state" "main").err = none :=
  ⟨(c10_init_outcome stEmpty oracleInitFail "abc-123" [] "state" "main" "grpc-handle"
      (Or.inr rfl) rfl rfl rfl rfl rfl rfl).1,
   (c10_init_outcome stEmpty oracleInitFail "abc-123" [] "state" "main" "grpc-handle"
      (Or.inr rfl) rfl rfl rfl rfl rfl rfl).2.1 (by decide),
   (c10_init_outcome stLock oracleInitFail "abc-123" [] "state" "main" "grpc-handle"
      (Or.inr rfl) rfl rfl rfl rfl rfl rfl).2.2 "locked" (by decide)⟩

/-! ### Claim C9: lock scope -/

/-- C9 counterexample: the claim asserts the guard is never held across
filesystem I/O in either entry point, but `WorkspaceStore.Remove` acquires
the lock (with a deferred release) and then performs the recursive directory
deletion while still holding it, so the scan of a concrete removal trace
rejects it. -/
theorem c9_lock_scope_counterexample :
    lockedOnlyMapOps false (WorkspaceStore.Remove st0 oracleOk "abc-123").trace = false := by
  decide

/-- C9 amended: in `WorkspaceStore.Workspace` the guard is held only around
the registry read and insert — every filesystem and process event of every
possible trace happens unlocked — while `WorkspaceStore.Remove` deliberately
holds the guard for the whole call as one critical section (acquired first,
released last), so its directory deletion runs under the lock. -/
theorem c9_lock_scope_amended :
    (∀ (st : WorkspaceStore) (o : Oracle) (uid : String) (tsEnv : List String) (sc mc : String),
      lockedOnlyMapOps false (WorkspaceStore.Workspace st o uid tsEnv sc mc).trace = true)
    ∧ (∀ (st : WorkspaceStore) (o : Oracle) (uid : String),
      lockBracketed (WorkspaceStore.Remove st o uid).trace = true) := by
  constructor
  · intro st o uid tsEnv sc mc
    have H := wsGetPrep_trace_locked st o uid sc mc
    rcases wsWorkspace_split st o uid tsEnv sc mc with ⟨-, heq⟩ | ⟨e, -, heq⟩
    · rw [heq]
      exact wsGetCore_trace _ o uid tsEnv _ _ H
    · rw [heq]
      show lockedOnlyMapOps false (wsGetPrep st o uid sc mc).trace = true
      rw [← List.append_nil (wsGetPrep st o uid sc mc).trace, H]
      rfl
  · intro st o uid
    unfold WorkspaceStore.Remove
    repeat' split
    all_goals rfl

end Upjet
